import Mathlib

/-!
Verification of the template-driven expression engine of the
nifi-python-extensions-processor repository.

The development shallowly embeds the Python sources:
  * `V5`   — sql_generator_processor_v5.py (jsonpath cache, `_render`,
             `_eval_placeholder`, `_extract`, `_apply_function`, `_format`,
             `_split_data`)
  * `V2`   — sql_generator_processor_v2_v1_0_10.py (recursive-descent
             expression grammar, `evaluate`, `call_function`, `toInt`,
             `toStr`, `append`, `replace_placeholders`, jmespath subset)
  * `V107` — sql_generator_processor_v1_0_7.py (`evaluate_expression` and
             its placeholder substitution)
  * `AddField` — add_field_processor_v1_0_0.py (date branch of the template
             replacer)
  * `AddUuid`  — add_uuid_field_v1_0_4.py (date branch of
             `replace_placeholder`)

Python values parsed from JSON are modelled by `Json`; the Python value
`None` and the JSON literal `null` coincide (exactly as in `json.loads`),
both are `Json.null`.  Machine floats are not modelled: none of the
verified properties involves float data.
-/

namespace Nifi

/-- Tree of JSON data: the data context every render call operates over.
Python dicts keep insertion order, hence an association list. -/
inductive Json where
  | null
  | bool (b : Bool)
  | int (n : Int)
  | str (s : String)
  | arr (xs : List Json)
  | obj (kvs : List (String × Json))

mutual

/-- Structural equality on `Json` (the semantics of Python `==` on values
parsed from JSON). -/
def Json.beq : Json → Json → Bool
  | .null, .null => true
  | .bool a, .bool b => a == b
  | .int a, .int b => a == b
  | .str a, .str b => a == b
  | .arr as_, .arr bs => Json.beqList as_ bs
  | .obj as_, .obj bs => Json.beqObj as_ bs
  | _, _ => false

def Json.beqList : List Json → List Json → Bool
  | [], [] => true
  | a :: as_, b :: bs => Json.beq a b && Json.beqList as_ bs
  | _, _ => false

def Json.beqObj : List (String × Json) → List (String × Json) → Bool
  | [], [] => true
  | (k1, v1) :: as_, (k2, v2) :: bs =>
      k1 == k2 && Json.beq v1 v2 && Json.beqObj as_ bs
  | _, _ => false

end

/-- Insertion-ordered dict lookup (`dict.get`). -/
def objLookup : List (String × Json) → String → Option Json
  | [], _ => none
  | (k, v) :: rest, key => if k = key then some v else objLookup rest key

/-- The single-quote character, written by code point to keep the sources
of all quoting rules in one place. -/
def sqc : Char := Char.ofNat 39

/-- The double-quote character. -/
def dqc : Char := Char.ofNat 34

/-- The backslash character. -/
def bsc : Char := Char.ofNat 92

/-- One-character string holding a single quote. -/
def sqStr : String := String.mk [sqc]

/-- Python `s.replace(chr(39), chr(39)*2)`: double every embedded single
quote. -/
def escSq (s : String) : String :=
  String.mk (s.data.foldr (fun c acc => if c = sqc then sqc :: sqc :: acc else c :: acc) [])

/-- Wrap in single quotes. -/
def quoteSq (s : String) : String := sqStr ++ s ++ sqStr

/-- Python `str.strip()` (whitespace at both ends). -/
def pyStrip (s : String) : String :=
  String.mk (((s.data.dropWhile Char.isWhitespace).reverse.dropWhile Char.isWhitespace).reverse)

def joinSep (sep : String) : List String → String
  | [] => ""
  | [x] => x
  | x :: xs => x ++ sep ++ joinSep sep xs

def hexDigit (n : Nat) : Char :=
  if n < 10 then Char.ofNat (48 + n) else Char.ofNat (97 + (n - 10))

def hex4 (n : Nat) : List Char :=
  [hexDigit (n / 4096 % 16), hexDigit (n / 256 % 16), hexDigit (n / 16 % 16), hexDigit (n % 16)]

/-- Escaping of one character inside a JSON string literal, following
`json.dumps` with its default `ensure_ascii=True`. -/
def jsonEscapeChar (c : Char) : List Char :=
  if c = dqc then [bsc, dqc]
  else if c = bsc then [bsc, bsc]
  else if c = Char.ofNat 10 then [bsc, 'n']
  else if c = Char.ofNat 13 then [bsc, 'r']
  else if c = Char.ofNat 9 then [bsc, 't']
  else if c = Char.ofNat 8 then [bsc, 'b']
  else if c = Char.ofNat 12 then [bsc, 'f']
  else if c.toNat < 32 ∨ 126 < c.toNat then
    if c.toNat < 65536 then bsc :: 'u' :: hex4 c.toNat
    else
      (bsc :: 'u' :: hex4 (55296 + (c.toNat - 65536) / 1024)) ++
        (bsc :: 'u' :: hex4 (56320 + (c.toNat - 65536) % 1024))
  else [c]

def jsonDumpStr (s : String) : String :=
  String.mk (dqc :: s.data.flatMap jsonEscapeChar ++ [dqc])

mutual

/-- `json.dumps` with default separators `(", ", ": ")`. -/
def jsonDumps : Json → String
  | .null => "null"
  | .bool b => if b then "true" else "false"
  | .int n => toString n
  | .str s => jsonDumpStr s
  | .arr xs => "[" ++ jsonDumpsList xs ++ "]"
  | .obj kvs => "\x7b" ++ jsonDumpsObj kvs ++ "\x7d"

def jsonDumpsList : List Json → String
  | [] => ""
  | [x] => jsonDumps x
  | x :: xs => jsonDumps x ++ ", " ++ jsonDumpsList xs

def jsonDumpsObj : List (String × Json) → String
  | [] => ""
  | [(k, v)] => jsonDumpStr k ++ ": " ++ jsonDumps v
  | (k, v) :: kvs => jsonDumpStr k ++ ": " ++ jsonDumps v ++ ", " ++ jsonDumpsObj kvs

end

/-- Python `repr` of a string: quoted (double quotes when the text holds a
single quote but no double quote, single quotes otherwise). -/
def pyReprStr (s : String) : String :=
  if s.data.contains sqc ∧ ¬ s.data.contains dqc then
    String.mk (dqc :: s.data ++ [dqc])
  else
    String.mk (sqc :: s.data.flatMap (fun c => if c = sqc then [bsc, sqc] else [c]) ++ [sqc])

mutual

/-- Python `str(value)` on JSON-shaped values. -/
def pyStr : Json → String
  | .null => "None"
  | .bool b => if b then "True" else "False"
  | .int n => toString n
  | .str s => s
  | .arr xs => "[" ++ pyReprList xs ++ "]"
  | .obj kvs => "\x7b" ++ pyReprObj kvs ++ "\x7d"

/-- Python `repr(value)`; scalars print as `str` does. -/
def pyRepr : Json → String
  | .str s => pyReprStr s
  | .arr xs => "[" ++ pyReprList xs ++ "]"
  | .obj kvs => "\x7b" ++ pyReprObj kvs ++ "\x7d"
  | .null => "None"
  | .bool b => if b then "True" else "False"
  | .int n => toString n

def pyReprList : List Json → String
  | [] => ""
  | [x] => pyRepr x
  | x :: xs => pyRepr x ++ ", " ++ pyReprList xs

def pyReprObj : List (String × Json) → String
  | [] => ""
  | [(k, v)] => pyReprStr k ++ ": " ++ pyRepr v
  | (k, v) :: kvs => pyReprStr k ++ ": " ++ pyRepr v ++ ", " ++ pyReprObj kvs

end

def digitsToNat? (ds : List Char) : Option Nat :=
  if ds ≠ [] ∧ ds.all Char.isDigit then
    some (ds.foldl (fun acc c => acc * 10 + (c.toNat - 48)) 0)
  else none

/-- Python `int(x)`: identity on ints, `True`/`False` to 1/0, strings are
stripped then read as an optionally signed digit run; everything else
(`None`, lists, dicts) raises, i.e. yields `none`. -/
def pyInt : Json → Option Int
  | .int n => some n
  | .bool b => some (if b then 1 else 0)
  | .str s =>
      match (pyStrip s).data with
      | '+' :: ds => (digitsToNat? ds).map Int.ofNat
      | '-' :: ds => (digitsToNat? ds).map (fun n => -(n : Int))
      | ds => (digitsToNat? ds).map Int.ofNat
  | _ => none

/-! ### Path queries

One segment of a compiled path query, shared by the jsonpath-ng model
(`parsePath` / `findPath`, used by v5 and v3) and the jmespath model
(used by v2). -/

inductive JSeg where
  | field (name : String)
  | idx (i : Nat)
  | star
deriving DecidableEq

def isIdentChar (c : Char) : Bool := c.isAlphanum || c = '_'

/-- Segments of a path after the leading `$`: `.name`, `[i]` and `[*]`. -/
def parseSegs : Nat → List Char → Option (List JSeg)
  | _, [] => some []
  | 0, _ => none
  | fuel + 1, '.' :: rest =>
      let name := rest.takeWhile isIdentChar
      if name = [] then none
      else (parseSegs fuel (rest.drop name.length)).map (JSeg.field (String.mk name) :: ·)
  | fuel + 1, '[' :: '*' :: ']' :: rest => (parseSegs fuel rest).map (JSeg.star :: ·)
  | fuel + 1, '[' :: rest =>
      let ds := rest.takeWhile Char.isDigit
      match digitsToNat? ds, rest.drop ds.length with
      | some i, ']' :: rest2 => (parseSegs fuel rest2).map (JSeg.idx i :: ·)
      | _, _ => none
  | _, _ => none

/-- The jsonpath-ng `parse` on the dialect the processors use: `$`,
`$.a.b`, `$[i].a`, `$[*].a`, and a bare field name; a malformed text
raises, i.e. yields `none`. -/
def parsePath (s : String) : Option (List JSeg) :=
  match s.data with
  | [] => none
  | '$' :: rest => parseSegs (rest.length + 1) rest
  | c :: _ =>
      if isIdentChar c ∧ ¬ c.isDigit then
        let name := s.data.takeWhile isIdentChar
        (parseSegs (s.data.length + 1) (s.data.drop name.length)).map
          (JSeg.field (String.mk name) :: ·)
      else none

def findSeg : JSeg → Json → List Json
  | .field f, .obj kvs => match objLookup kvs f with | some v => [v] | none => []
  | .field _, _ => []
  | .idx i, .arr xs => match xs.get? i with | some v => [v] | none => []
  | .idx _, _ => []
  | .star, .arr xs => xs
  | .star, .obj kvs => kvs.map (·.2)
  | .star, _ => []

/-- `expr.find(data)` of jsonpath-ng: the ordered list of matched values;
a missing field at a concrete path is an empty list, never an error. -/
def findPath : List JSeg → Json → List Json
  | [], v => [v]
  | seg :: rest, v => (findSeg seg v).flatMap (findPath rest)

/-! ### A small `json.loads`

Used by `_parse_default` in v5.  Integers, strings, booleans, `null`,
arrays and objects; float literals are outside the model and fail. -/

def jWs (cs : List Char) : List Char :=
  cs.dropWhile (fun c => c = ' ' ∨ c = Char.ofNat 9 ∨ c = Char.ofNat 10 ∨ c = Char.ofNat 13)

def hexVal (c : Char) : Option Nat :=
  if c.isDigit then some (c.toNat - 48)
  else if 'a' ≤ c ∧ c ≤ 'f' then some (c.toNat - 87)
  else if 'A' ≤ c ∧ c ≤ 'F' then some (c.toNat - 55)
  else none

/-- Body of a JSON string literal, after the opening quote. -/
def jlStr : Nat → List Char → Option (List Char × List Char)
  | 0, _ => none
  | _, [] => none
  | fuel + 1, c :: rest =>
      if c = dqc then some ([], rest)
      else if c = bsc then
        (match rest with
          | [] => none
          | e :: rest2 =>
            let dec : Option (Char × List Char) :=
              if e = dqc then some (dqc, rest2)
              else if e = bsc then some (bsc, rest2)
              else if e = '/' then some ('/', rest2)
              else if e = 'n' then some (Char.ofNat 10, rest2)
              else if e = 't' then some (Char.ofNat 9, rest2)
              else if e = 'r' then some (Char.ofNat 13, rest2)
              else if e = 'b' then some (Char.ofNat 8, rest2)
              else if e = 'f' then some (Char.ofNat 12, rest2)
              else if e = 'u' then
                match rest2 with
                | h1 :: h2 :: h3 :: h4 :: rest3 =>
                    match hexVal h1, hexVal h2, hexVal h3, hexVal h4 with
                    | some a, some b, some cc, some d =>
                        some (Char.ofNat (a * 4096 + b * 256 + cc * 16 + d), rest3)
                    | _, _, _, _ => none
                | _ => none
              else none
            dec.bind fun p => (jlStr fuel p.2).map fun q => (p.1 :: q.1, q.2))
      else (jlStr fuel rest).map fun q => (c :: q.1, q.2)

def expectLit (lit : List Char) (cs : List Char) : Option (List Char) :=
  if lit.isPrefixOf cs then some (cs.drop lit.length) else none

mutual

def jlValue : Nat → List Char → Option (Json × List Char)
  | 0, _ => none
  | fuel + 1, cs =>
      match jWs cs with
      | [] => none
      | c :: rest =>
          if c = dqc then
            (jlStr (rest.length + 1) rest).map fun q => (Json.str (String.mk q.1), q.2)
          else if c = '[' then jlArr fuel rest
          else if c = '\x7b' then jlObj fuel rest
          else if c = 't' then (expectLit ['r', 'u', 'e'] rest).map ((Json.bool true, ·))
          else if c = 'f' then (expectLit ['a', 'l', 's', 'e'] rest).map ((Json.bool false, ·))
          else if c = 'n' then (expectLit ['u', 'l', 'l'] rest).map ((Json.null, ·))
          else if c = '-' then
            let ds := rest.takeWhile Char.isDigit
            (digitsToNat? ds).map fun n => (Json.int (-(n : Int)), rest.drop ds.length)
          else if c.isDigit then
            let ds := (c :: rest).takeWhile Char.isDigit
            (digitsToNat? ds).map fun n => (Json.int (n : Int), (c :: rest).drop ds.length)
          else none

def jlArr : Nat → List Char → Option (Json × List Char)
  | 0, _ => none
  | fuel + 1, cs =>
      match jWs cs with
      | ']' :: rest => some (Json.arr [], rest)
      | cs' =>
          (jlValue fuel cs').bind fun p =>
            (jlArrRest fuel p.2).map fun q => (Json.arr (p.1 :: q.1), q.2)

def jlArrRest : Nat → List Char → Option (List Json × List Char)
  | 0, _ => none
  | fuel + 1, cs =>
      match jWs cs with
      | ',' :: rest =>
          (jlValue fuel rest).bind fun p =>
            (jlArrRest fuel p.2).map fun q => (p.1 :: q.1, q.2)
      | ']' :: rest => some ([], rest)
      | _ => none

def jlObj : Nat → List Char → Option (Json × List Char)
  | 0, _ => none
  | fuel + 1, cs =>
      match jWs cs with
      | '\x7d' :: rest => some (Json.obj [], rest)
      | cs' =>
          (jlMember fuel cs').bind fun p =>
            (jlObjRest fuel p.2).map fun q => (Json.obj (p.1 :: q.1), q.2)

def jlObjRest : Nat → List Char → Option (List (String × Json) × List Char)
  | 0, _ => none
  | fuel + 1, cs =>
      match jWs cs with
      | ',' :: rest =>
          (jlMember fuel rest).bind fun p =>
            (jlObjRest fuel p.2).map fun q => (p.1 :: q.1, q.2)
      | '\x7d' :: rest => some ([], rest)
      | _ => none

def jlMember : Nat → List Char → Option ((String × Json) × List Char)
  | 0, _ => none
  | fuel + 1, cs =>
      match jWs cs with
      | c :: rest =>
          if c = dqc then
            (jlStr (rest.length + 1) rest).bind fun p =>
              match jWs p.2 with
              | ':' :: rest2 =>
                  (jlValue fuel rest2).map fun q => ((String.mk p.1, q.1), q.2)
              | _ => none
          else none
      | [] => none

end

/-- `json.loads` on the modelled fragment: the whole text must be one value
plus trailing whitespace. -/
def jsonLoads (s : String) : Option Json :=
  (jlValue (s.data.length + 1) s.data).bind fun p =>
    match jWs p.2 with
    | [] => some p.1
    | _ => none

/-! ## The v5 processor (`sql_generator_processor_v5.py`)

Stateful helpers thread the jsonpath cache explicitly and log each text
that is actually compiled; pure `…P` variants are the cache-free
denotations used to state cache transparency. -/

namespace V5

/-- `self._jsonpath_cache`: compiled path queries keyed by raw text. -/
abbrev Cache := List (String × List JSeg)

def cacheGet : Cache → String → Option (List JSeg)
  | [], _ => none
  | (k, e) :: rest, key => if k = key then some e else cacheGet rest key

/-- `_get_expr`: return a cached compiled JSONPath expression, compiling
and inserting on a miss.  The third component logs the texts compiled by
this call. -/
def getExpr (c : Cache) (path : String) : Except String (List JSeg) × Cache × List String :=
  match cacheGet c path with
  | some e => (.ok e, c, [])
  | none =>
      match parsePath path with
      | some e => (.ok e, (path, e) :: c, [path])
      | none => (.error path, c, [])

/-- `_format`: the single textual-substitution formatting rule.  A Python
`bool` is an `int` instance, so booleans take the numeric branch
(`str(True)`). -/
def format : Json → String
  | .null => "null"
  | .bool b => if b then "True" else "False"
  | .int n => toString n
  | .str s => quoteSq (escSq s)
  | .arr xs => quoteSq (escSq (jsonDumps (.arr xs)))
  | .obj kvs => quoteSq (escSq (jsonDumps (.obj kvs)))

/-- `_apply_function`: `None` short-circuits to `null`; a conversion
failure inside `toInt` is caught and becomes `null`; a name that is not
`toString`/`toInt`/`toJson` falls through to `_format`. -/
def applyFunction (name : String) (v : Json) : String :=
  match v with
  | .null => "null"
  | v =>
      if name = "toString" then quoteSq (escSq (pyStr v))
      else if name = "toInt" then
        match pyInt v with
        | some n => toString n
        | none => "null"
      else if name = "toJson" then quoteSq (escSq (jsonDumps v))
      else format v

/-- `_parse_default`. -/
def parseDefault (s : String) : Json :=
  let e := pyStrip s
  if e.data ≠ [] ∧ e.data.head? = some sqc ∧ e.data.getLast? = some sqc then
    .str (String.mk e.data.tail.dropLast)
  else if e.toLower = "null" then .null
  else
    match jsonLoads e with
    | some v => v
    | none => .str e

/-- `_extract`, pure denotation (`parse` called directly). -/
def extractP (ctx : Json) (path : String) (default : Json) : Except String Json :=
  if path = "$" then .ok ctx
  else
    match parsePath path with
    | none => .error path
    | some e =>
        match findPath e ctx with
        | [] => .ok default
        | [v] => .ok v
        | vs => .ok (.arr vs)

/-- `_extract` with the shared cache. -/
def extract (c : Cache) (ctx : Json) (path : String) (default : Json) :
    Except String Json × Cache × List String :=
  if path = "$" then (.ok ctx, c, [])
  else
    match getExpr c path with
    | (.error err, c1, l1) => (.error err, c1, l1)
    | (.ok e, c1, l1) =>
        match findPath e ctx with
        | [] => (.ok default, c1, l1)
        | [v] => (.ok v, c1, l1)
        | vs => (.ok (.arr vs), c1, l1)

def isWordChar (c : Char) : Bool := c.isAlphanum || c = '_'

/-- The `^(\w+)\((.*)\)$` match of `_eval_placeholder` on the stripped
expression: function name and raw argument text. -/
def fnMatch (e : String) : Option (String × String) :=
  let w := e.data.takeWhile isWordChar
  if w = [] then none
  else
    match e.data.drop w.length with
    | '(' :: more =>
        if more.getLast? = some ')' ∧ ¬ more.dropLast.contains (Char.ofNat 10) then
          some (String.mk w, String.mk more.dropLast)
        else none
    | _ => none

/-- Python `s.split(sep, 1)`: the part before the first comma and, when one
exists, the part after it. -/
def splitComma1 (s : String) : String × Option String :=
  let pre := s.data.takeWhile (· ≠ ',')
  match s.data.drop pre.length with
  | ',' :: rest => (String.mk pre, some (String.mk rest))
  | _ => (String.mk pre, none)

/-- `_eval_placeholder`, pure denotation. -/
def evalPlaceholderP (ctx : Json) (raw : String) : Except String String :=
  let e := pyStrip raw
  match fnMatch e with
  | some (name, argsStr) =>
      let parts := splitComma1 argsStr
      let path := pyStrip parts.1
      let default :=
        match parts.2 with
        | some a1 => parseDefault (pyStrip a1)
        | none => Json.null
      match extractP ctx path default with
      | .error err => .error err
      | .ok v => .ok (applyFunction name v)
  | none =>
      if e.data.contains ',' then
        let parts := splitComma1 e
        let path := pyStrip parts.1
        let default := parseDefault (pyStrip ((parts.2).getD ""))
        match extractP ctx path default with
        | .error err => .error err
        | .ok v => .ok (format v)
      else
        match extractP ctx e Json.null with
        | .error err => .error err
        | .ok v => .ok (format v)

/-- `_eval_placeholder` with the shared cache. -/
def evalPlaceholder (c : Cache) (ctx : Json) (raw : String) :
    Except String String × Cache × List String :=
  let e := pyStrip raw
  match fnMatch e with
  | some (name, argsStr) =>
      let parts := splitComma1 argsStr
      let path := pyStrip parts.1
      let default :=
        match parts.2 with
        | some a1 => parseDefault (pyStrip a1)
        | none => Json.null
      match extract c ctx path default with
      | (.error err, c1, l1) => (.error err, c1, l1)
      | (.ok v, c1, l1) => (.ok (applyFunction name v), c1, l1)
  | none =>
      if e.data.contains ',' then
        let parts := splitComma1 e
        let path := pyStrip parts.1
        let default := parseDefault (pyStrip ((parts.2).getD ""))
        match extract c ctx path default with
        | (.error err, c1, l1) => (.error err, c1, l1)
        | (.ok v, c1, l1) => (.ok (format v), c1, l1)
      else
        match extract c ctx e Json.null with
        | (.error err, c1, l1) => (.error err, c1, l1)
        | (.ok v, c1, l1) => (.ok (format v), c1, l1)

/-- Split at the first closing brace: the regex `[^\x7d]*` capture and the
remainder after the brace, when a closing brace exists. -/
def spanBrace (cs : List Char) : Option (List Char × List Char) :=
  let inner := cs.takeWhile (· ≠ '\x7d')
  match cs.drop inner.length with
  | '\x7d' :: rest => some (inner, rest)
  | _ => none

/-- `_render`, pure denotation: substitute every `$\x7b...\x7d` placeholder
left to right. -/
def renderPGo (ctx : Json) : Nat → List Char → Except String (List Char)
  | _, [] => .ok []
  | 0, cs => .ok cs
  | fuel + 1, ch :: rest =>
      if ch = '$' ∧ rest.head? = some '\x7b' then
        match spanBrace rest.tail with
        | some (inner, rest2) =>
            (match evalPlaceholderP ctx (String.mk inner) with
              | .error err => .error err
              | .ok s =>
                  match renderPGo ctx fuel rest2 with
                  | .error err => .error err
                  | .ok out => .ok (s.data ++ out))
        | none => .ok (ch :: rest)
      else (renderPGo ctx fuel rest).map (ch :: ·)

def renderP (t : String) (ctx : Json) : Except String String :=
  (renderPGo ctx (t.data.length + 1) t.data).map String.mk

/-- `_render` with the shared cache, logging compiled texts. -/
def renderGo (ctx : Json) : Nat → List Char → Cache →
    Except String (List Char) × Cache × List String
  | _, [], c => (.ok [], c, [])
  | 0, cs, c => (.ok cs, c, [])
  | fuel + 1, ch :: rest, c =>
      if ch = '$' ∧ rest.head? = some '\x7b' then
        match spanBrace rest.tail with
        | some (inner, rest2) =>
            (match evalPlaceholder c ctx (String.mk inner) with
              | (.error err, c1, l1) => (.error err, c1, l1)
              | (.ok s, c1, l1) =>
                  match renderGo ctx fuel rest2 c1 with
                  | (.error err, c2, l2) => (.error err, c2, l1 ++ l2)
                  | (.ok out, c2, l2) => (.ok (s.data ++ out), c2, l1 ++ l2))
        | none => (.ok (ch :: rest), c, [])
      else
        match renderGo ctx fuel rest c with
        | (r, c1, l1) => (r.map (ch :: ·), c1, l1)

def render (t : String) (ctx : Json) (c : Cache) : Except String String × Cache × List String :=
  match renderGo ctx (t.data.length + 1) t.data c with
  | (r, c1, l1) => (r.map String.mk, c1, l1)

/-- Does the placeholder regex match anywhere in the template? -/
def hasPlaceholderGo : Nat → List Char → Bool
  | _, [] => false
  | 0, _ => false
  | fuel + 1, ch :: rest =>
      if ch = '$' ∧ rest.head? = some '\x7b' then (spanBrace rest.tail).isSome
      else hasPlaceholderGo fuel rest

def hasPlaceholder (t : String) : Bool := hasPlaceholderGo (t.data.length + 1) t.data

/-- `_split_data`.  `key` and `value` are the raw property values (absent =
`none`); results mirror the Python return value, whose first component is
always a list and whose second is the raw data in the early-out case. -/
def splitData (data : Json) (key : Option String) (value : Option String) :
    Except String (Json × Json) :=
  if key = none ∨ key = some "" ∨ value = none then .ok (.arr [], data)
  else
    match key, value with
    | some k, some v =>
        (match parsePath k with
          | none => .error k
          | some e =>
              match data with
              | .arr items =>
                  let matched := items.filter fun it =>
                    (findPath e it).any fun m => Json.beq m (Json.str v)
                  let unmatched := items.filter fun it =>
                    ! matched.any fun y => Json.beq y it
                  .ok (.arr matched, .arr unmatched)
              | d =>
                  if (findPath e d).any (fun m => Json.beq m (Json.str v)) then
                    .ok (.arr [d], .arr [])
                  else .ok (.arr [], .arr [d]))
    | _, _ => .ok (.arr [], data)

end V5

/-! ## The v2 processor (`sql_generator_processor_v2_v1_0_10.py`) -/

namespace V2

/-- The AST built by `ExpressionParser`. -/
inductive Expr2 where
  | var (name : String)
  | strLit (s : String)
  | numLit (n : Int)
  | call (name : String) (args : List Expr2)

/-- `parse_variable`: consume `$` then every char up to a space, comma,
parenthesis or single quote; the leading `$` stays in the name. -/
def parseVar (cs : List Char) : Expr2 × List Char :=
  match cs with
  | '$' :: rest =>
      let body := cs.tail.takeWhile fun c =>
        ¬ (c = ' ' ∨ c = ',' ∨ c = ')' ∨ c = '(' ∨ c = sqc)
      (.var (String.mk ('$' :: body)), rest.drop body.length)
  | _ => (.var "", cs)

/-- `parse_string`: the body up to the matching quote; running out of input
is an unterminated-string error. -/
def parseStrLit (q : Char) (cs : List Char) : Except String (Expr2 × List Char) :=
  let body := cs.takeWhile (· ≠ q)
  match cs.drop body.length with
  | _ :: rest => .ok (.strLit (String.mk body), rest)
  | [] => .error "Unterminated string"

/-- `parse_number`: a digit run. -/
def parseNumLit (cs : List Char) : Expr2 × List Char :=
  let ds := cs.takeWhile Char.isDigit
  (.numLit ((digitsToNat? ds).getD 0 : Nat), cs.drop ds.length)

def skipWs (cs : List Char) : List Char := cs.dropWhile Char.isWhitespace

mutual

/-- `parse_expression`. -/
def parseExpr : Nat → List Char → Except String (Expr2 × List Char)
  | 0, _ => .error "fuel exhausted"
  | fuel + 1, cs =>
      match skipWs cs with
      | [] => .error "Unexpected character"
      | c :: rest =>
          if c.isAlpha then parseFuncVar fuel (c :: rest)
          else if c = '$' then .ok (parseVar (c :: rest))
          else if c = sqc ∨ c = dqc then parseStrLit c rest
          else if c.isDigit then .ok (parseNumLit (c :: rest))
          else .error "Unexpected character"

/-- `parse_function_call_or_variable`. -/
def parseFuncVar : Nat → List Char → Except String (Expr2 × List Char)
  | 0, _ => .error "fuel exhausted"
  | fuel + 1, cs =>
      let name := cs.takeWhile fun c => c.isAlphanum || c = '_'
      let rest := skipWs (cs.drop name.length)
      match rest with
      | '(' :: rest2 =>
          (parseArgs fuel rest2 []).map fun p => (.call (String.mk name) p.1, p.2)
      | _ => .ok (.var (String.mk name), rest)

/-- The argument loop of `parse_function_call`. -/
def parseArgs : Nat → List Char → List Expr2 → Except String (List Expr2 × List Char)
  | 0, _, _ => .error "fuel exhausted"
  | fuel + 1, cs, acc =>
      match skipWs cs with
      | ')' :: rest => .ok (acc.reverse, rest)
      | cs' =>
          match parseExpr fuel cs' with
          | .error e => .error e
          | .ok (arg, cs2) =>
              match skipWs cs2 with
              | ',' :: rest => parseArgs fuel rest (arg :: acc)
              | ')' :: rest => .ok ((arg :: acc).reverse, rest)
              | _ => .error "Expected comma or closing parenthesis"

end

/-! ### jmespath subset

`get_parameters` strips `$`/`.` prefixes and hands the rest to
`jmespath.search`; the processors only use field chains, indexing and the
`[*]` list projection (whose missing/null elements are dropped). -/

def pjIdent (cs : List Char) : Option (String × List Char) :=
  match cs with
  | c :: _ =>
      if c.isAlpha ∨ c = '_' then
        let run := cs.takeWhile fun d => d.isAlphanum || d = '_'
        some (String.mk run, cs.drop run.length)
      else none
  | [] => none

def pjBracket (cs : List Char) : Option (JSeg × List Char) :=
  match cs with
  | '[' :: '*' :: ']' :: rest => some (.star, rest)
  | '[' :: rest =>
      let ds := rest.takeWhile Char.isDigit
      match digitsToNat? ds, rest.drop ds.length with
      | some i, ']' :: rest2 => some (.idx i, rest2)
      | _, _ => none
  | _ => none

def pjRest : Nat → List Char → Option (List JSeg)
  | _, [] => some []
  | 0, _ => none
  | fuel + 1, '.' :: cs =>
      (pjIdent cs).bind fun p => (pjRest fuel p.2).map (JSeg.field p.1 :: ·)
  | fuel + 1, '[' :: cs =>
      (pjBracket ('[' :: cs)).bind fun p => (pjRest fuel p.2).map (p.1 :: ·)
  | _, _ => none

/-- Parse a jmespath expression of the used dialect; `none` models a
jmespath `ParseError` (e.g. the empty expression). -/
def jmParse (s : String) : Option (List JSeg) :=
  match s.data with
  | [] => none
  | '[' :: _ => (pjBracket s.data).bind fun p => (pjRest (s.data.length + 1) p.2).map (p.1 :: ·)
  | _ => (pjIdent s.data).bind fun p => (pjRest (s.data.length + 1) p.2).map (JSeg.field p.1 :: ·)

/-- Evaluate a parsed jmespath query; a miss is Python `None`, and the
`[*]` projection drops elements whose continuation comes back `None`. -/
def jmEval : List JSeg → Json → Json
  | [], v => v
  | .field f :: rest, .obj kvs =>
      (match objLookup kvs f with
        | some v => jmEval rest v
        | none => .null)
  | .field _ :: _, _ => .null
  | .idx i :: rest, .arr xs =>
      (match xs.get? i with
        | some v => jmEval rest v
        | none => .null)
  | .idx _ :: _, _ => .null
  | .star :: rest, .arr xs =>
      .arr (xs.filterMap fun x =>
        match jmEval rest x with
        | .null => none
        | r => some r)
  | .star :: _, _ => .null

/-- `get_parameters` ∘ `get_variable_value`: strip leading `$`s and `.`s,
then search. -/
def getVariableValue (varname : String) (data : Json) : Except String Json :=
  let cleaned := String.mk ((varname.data.dropWhile (· = '$')).dropWhile (· = '.'))
  match jmParse cleaned with
  | none => .error ("jmespath parse error: " ++ cleaned)
  | some segs => .ok (jmEval segs data)

/-- The elements one argument contributes: a sequence argument is spread,
any other value stands alone (`if isinstance(arg, list)`). -/
def asList : Json → List Json
  | .arr xs => xs
  | x => [x]

/-- Elements an argument list contributes after the per-argument list
flattening every v2 builtin performs. -/
def elementsOf (args : List Json) : List Json :=
  args.flatMap asList

/-- `int()` of every element of one argument, first failure aborts. -/
def intList : List Json → Except String (List Int)
  | [] => .ok []
  | x :: xs =>
      match pyInt x with
      | none => .error "ConversionError: invalid literal for int"
      | some n => (intList xs).map (n :: ·)

/-- `toInt`: `int()` of every element, first failure aborts. -/
def intsOf : List Json → Except String (List Int)
  | [] => .ok []
  | a :: rest =>
      match intList (asList a) with
      | .error e => .error e
      | .ok ys => (intsOf rest).map (ys ++ ·)

/-- `toInt(*args)` including the final unwrapping (`result[0]` raises on an
empty result). -/
def toIntV2 (args : List Json) : Except String Json :=
  match intsOf args with
  | .error e => .error e
  | .ok [] => .error "IndexError"
  | .ok [n] => .ok (.int n)
  | .ok ns => .ok (.arr (ns.map Json.int))

/-- `toStr(*args)`. -/
def toStrV2 (args : List Json) : Except String Json :=
  match (elementsOf args).map (fun a => Json.str (pyStr a)) with
  | [] => .error "IndexError"
  | [x] => .ok x
  | xs => .ok (.arr xs)

/-- `append(*args)`: single-quote every element of every argument but the
last, append the suffix, join with commas. -/
def appendV2 (args : List Json) : Except String Json :=
  match args.getLast? with
  | none => .error "IndexError"
  | some last =>
      let suffix := match last with | .str s => s | _ => ""
      let elems := (elementsOf args.dropLast).map fun a =>
        sqStr ++ pyStr a ++ sqStr ++ suffix
      .ok (.str (joinSep "," elems))

/-- `call_function`: fixed dispatch; any other name raises. -/
def callFunction (name : String) (args : List Json) : Except String Json :=
  if name = "toInt" then toIntV2 args
  else if name = "toStr" then toStrV2 args
  else if name = "append" then appendV2 args
  else .error ("Unknown function: " ++ name)

mutual

/-- `evaluate`. -/
def evaluateE : Expr2 → Json → Except String Json
  | .call name args, data =>
      (match evalList args data with
        | .error e => .error e
        | .ok vs => callFunction name vs)
  | .var v, data => getVariableValue v data
  | .strLit s, _ => .ok (.str s)
  | .numLit n, _ => .ok (.int n)

def evalList : List Expr2 → Json → Except String (List Json)
  | [], _ => .ok []
  | e :: es, data =>
      match evaluateE e data with
      | .error err => .error err
      | .ok v => (evalList es data).map (v :: ·)

end

/-- The `replacer` closure of `replace_placeholders`: parse, evaluate, then
format — function results via `str`, everything else via the quoted-string
rule that does NOT escape embedded quotes. -/
def replacerV2 (data : Json) (expression : String) : Except String String :=
  match parseExpr (expression.length * 2 + 8) expression.data with
  | .error e => .error e
  | .ok (ast, _) =>
      match evaluateE ast data with
      | .error e => .error e
      | .ok result =>
          match ast with
          | .call _ _ =>
              (match result with
                | .arr items => .ok (joinSep ", " (items.map pyStr))
                | r => .ok (pyStr r))
          | _ =>
              match result with
              | .arr items =>
                  .ok (joinSep ", " (items.map fun it =>
                    match it with
                    | .str s => sqStr ++ s ++ sqStr
                    | _ => pyStr it))
              | .str s => .ok (sqStr ++ s ++ sqStr)
              | r => .ok (pyStr r)

/-- `replace_placeholders`: substitute `$\x7b \s* (.*?) \s* \x7d` matches,
whitespace around the captured expression stripped; an error inside any
placeholder aborts the render. -/
def renderV2Go (data : Json) : Nat → List Char → Except String (List Char)
  | _, [] => .ok []
  | 0, cs => .ok cs
  | fuel + 1, '$' :: '\x7b' :: rest =>
      (match V5.spanBrace rest with
        | some (inner, rest2) =>
            match replacerV2 data (pyStrip (String.mk inner)) with
            | .error e => .error e
            | .ok s =>
                match renderV2Go data fuel rest2 with
                | .error e => .error e
                | .ok out => .ok (s.data ++ out)
        | none => .ok ('$' :: '\x7b' :: rest))
  | fuel + 1, ch :: rest => (renderV2Go data fuel rest).map (ch :: ·)

def renderV2 (t : String) (data : Json) : Except String String :=
  (renderV2Go data (t.data.length + 1) t.data).map String.mk

end V2

/-! ## The v1.0.7 processor (`sql_generator_processor_v1_0_7.py`)

Its hand-rolled `evaluate_expression` supports exactly three anchored
regex shapes and raises on a missing key; `replace_placeholder` re-raises,
so the error escapes the whole render. -/

namespace V107

def isWordRun (cs : List Char) : Bool := cs ≠ [] && cs.all V5.isWordChar

/-- `^\$\.(\w+)$`. -/
def matchP1 (e : String) : Option String :=
  match e.data with
  | '$' :: '.' :: rest => if isWordRun rest then some (String.mk rest) else none
  | _ => none

/-- `^\$\[(\d+)\]\.(\w+)$`. -/
def matchP2 (e : String) : Option (Nat × String) :=
  match e.data with
  | '$' :: '[' :: rest =>
      let ds := rest.takeWhile Char.isDigit
      (match digitsToNat? ds, rest.drop ds.length with
        | some i, ']' :: '.' :: rest2 =>
            if isWordRun rest2 then some (i, String.mk rest2) else none
        | _, _ => none)
  | _ => none

/-- `^\$\[\*\]\.(\w+)$`. -/
def matchP3 (e : String) : Option String :=
  match e.data with
  | '$' :: '[' :: '*' :: ']' :: '.' :: rest =>
      if isWordRun rest then some (String.mk rest) else none
  | _ => none

/-- The `$[*].key` loop: every element must be a mapping holding the key,
otherwise the whole evaluation raises. -/
def collectAll (key : String) : List Json → Except String (List String)
  | [] => .ok []
  | item :: rest =>
      match item with
      | .obj kvs =>
          (match objLookup kvs key with
            | some v => (collectAll key rest).map (pyStr v :: ·)
            | none => .error ("KeyError: " ++ key))
      | _ => .error "TypeError"

/-- `evaluate_expression`: `str()` of the resolved value, errors for a
missing key, a bad index, a non-list under `[*]`, or an unsupported
expression shape.  (Membership tests and indexing on non-mapping data
raise in Python; both routes are collapsed to an error here.) -/
def evaluateExpression (expression : String) (jsonData : Json) : Except String String :=
  match matchP1 expression with
  | some key =>
      (match jsonData with
        | .obj kvs =>
            match objLookup kvs key with
            | some v => .ok (pyStr v)
            | none => .error ("KeyError: " ++ key)
        | _ => .error "TypeError")
  | none =>
  match matchP2 expression with
  | some (i, key) =>
      (match jsonData with
        | .arr xs =>
            (match xs.get? i with
              | some (.obj kvs) =>
                  (match objLookup kvs key with
                    | some v => .ok (pyStr v)
                    | none => .error ("KeyError: " ++ key))
              | some _ => .error "TypeError"
              | none => .error "IndexError")
        | _ => .error "IndexError")
  | none =>
  match matchP3 expression with
  | some key =>
      (match jsonData with
        | .arr xs => (collectAll key xs).map (joinSep ",")
        | _ => .error "NotAList")
  | none => .error ("Unsupported expression: " ++ expression)

/-- The `re.sub(r'\$\x7b([^\x7d]+)\x7d', replace_placeholder, template)`
loop; a placeholder needs a non-empty body, and any evaluation error is
re-raised out of the render. -/
def render107Go (data : Json) : Nat → List Char → Except String (List Char)
  | _, [] => .ok []
  | 0, cs => .ok cs
  | fuel + 1, '$' :: '\x7b' :: rest =>
      (match V5.spanBrace rest with
        | some ([], _) => (render107Go data fuel ('\x7b' :: rest)).map ('$' :: ·)
        | some (inner, rest2) =>
            match evaluateExpression (String.mk inner) data with
            | .error e => .error e
            | .ok s => (render107Go data fuel rest2).map (s.data ++ ·)
        | none => .ok ('$' :: '\x7b' :: rest))
  | fuel + 1, ch :: rest => (render107Go data fuel rest).map (ch :: ·)

def render107 (t : String) (data : Json) : Except String String :=
  (render107Go data (t.data.length + 1) t.data).map String.mk

end V107

/-! ## Dates

A single `datetime`-like model shared by `AddField` and `AddUuid`:
`fromisoformat`, a generic `strptime`/`strftime` over the directives the
processors use, and the Java-to-Python format-token translation tables. -/

structure PDateTime where
  year : Nat
  month : Nat
  day : Nat
  hour : Nat
  minute : Nat
  second : Nat
  micro : Nat
deriving DecidableEq

def isLeap (y : Nat) : Bool := y % 4 = 0 && (y % 100 ≠ 0 || y % 400 = 0)

def daysInMonth (y m : Nat) : Nat :=
  if m = 2 then (if isLeap y then 29 else 28)
  else if m = 4 ∨ m = 6 ∨ m = 9 ∨ m = 11 then 30
  else 31

/-- The `datetime(...)` constructor validation. -/
def mkDateTime (y mo d h mi s us : Nat) : Option PDateTime :=
  if 1 ≤ y ∧ y ≤ 9999 ∧ 1 ≤ mo ∧ mo ≤ 12 ∧ 1 ≤ d ∧ d ≤ daysInMonth y mo ∧
      h ≤ 23 ∧ mi ≤ 59 ∧ s ≤ 59 ∧ us ≤ 999999 then
    some ⟨y, mo, d, h, mi, s, us⟩
  else none

def natOfDigits (ds : List Char) : Nat :=
  ds.foldl (fun acc c => acc * 10 + (c.toNat - 48)) 0

/-- Exactly `n` digits. -/
def digitsExact (n : Nat) (cs : List Char) : Option (Nat × List Char) :=
  let ds := cs.take n
  if ds.length = n ∧ ds.all Char.isDigit then some (natOfDigits ds, cs.drop n)
  else none

/-- `datetime.fromisoformat` (the pre-3.11 grammar used by the sources):
`YYYY-MM-DD`, optionally a one-char separator and `HH:MM[:SS[.fff|.ffffff]]`. -/
def fromIso (s : String) : Option PDateTime :=
  match digitsExact 4 s.data with
  | none => none
  | some (y, r1) =>
  match r1 with
  | '-' :: r2 =>
    (match digitsExact 2 r2 with
      | none => none
      | some (mo, r3) =>
      match r3 with
      | '-' :: r4 =>
        (match digitsExact 2 r4 with
          | none => none
          | some (d, r5) =>
          match r5 with
          | [] => mkDateTime y mo d 0 0 0 0
          | _sep :: tcs =>
            match digitsExact 2 tcs with
            | none => none
            | some (h, t1) =>
            match t1 with
            | ':' :: t2 =>
              (match digitsExact 2 t2 with
                | none => none
                | some (mi, t3) =>
                match t3 with
                | [] => mkDateTime y mo d h mi 0 0
                | ':' :: t4 =>
                  (match digitsExact 2 t4 with
                    | none => none
                    | some (sec, t5) =>
                    match t5 with
                    | [] => mkDateTime y mo d h mi sec 0
                    | '.' :: fr =>
                        if fr.all Char.isDigit ∧ fr.length = 3 then
                          mkDateTime y mo d h mi sec (natOfDigits fr * 1000)
                        else if fr.all Char.isDigit ∧ fr.length = 6 then
                          mkDateTime y mo d h mi sec (natOfDigits fr)
                        else none
                    | _ => none)
                | _ => none)
            | _ => none)
      | _ => none)
  | _ => none

/-- At most `maxN` leading digits (at least one), with their count. -/
def takeDigits (maxN : Nat) (cs : List Char) : Option (Nat × Nat × List Char) :=
  let ds := (cs.take maxN).takeWhile Char.isDigit
  if ds = [] then none
  else some (natOfDigits ds, ds.length, cs.drop ds.length)

structure SPAcc where
  y : Nat := 1900
  mo : Nat := 1
  d : Nat := 1
  h : Nat := 0
  mi : Nat := 0
  s : Nat := 0
  us : Nat := 0

def pow10 : Nat → Nat
  | 0 => 1
  | n + 1 => 10 * pow10 n

/-- The directive walk of `_strptime` for the directives the repository
uses (`%Y %y %m %d %H %I %M %S %f %%`); any other directive fails, and
unconverted trailing input fails. -/
def spGo : Nat → List Char → List Char → SPAcc → Option SPAcc
  | 0, _, _, _ => none
  | _ + 1, [], input, acc => if input = [] then some acc else none
  | fuel + 1, '%' :: dch :: fr, input, acc =>
      if dch = 'Y' then
        (takeDigits 4 input).bind fun (v, _, r) => spGo fuel fr r { acc with y := v }
      else if dch = 'y' then
        (takeDigits 2 input).bind fun (v, _, r) =>
          spGo fuel fr r { acc with y := if v ≤ 68 then 2000 + v else 1900 + v }
      else if dch = 'm' then
        (takeDigits 2 input).bind fun (v, _, r) => spGo fuel fr r { acc with mo := v }
      else if dch = 'd' then
        (takeDigits 2 input).bind fun (v, _, r) => spGo fuel fr r { acc with d := v }
      else if dch = 'H' ∨ dch = 'I' then
        (takeDigits 2 input).bind fun (v, _, r) => spGo fuel fr r { acc with h := v }
      else if dch = 'M' then
        (takeDigits 2 input).bind fun (v, _, r) => spGo fuel fr r { acc with mi := v }
      else if dch = 'S' then
        (takeDigits 2 input).bind fun (v, _, r) => spGo fuel fr r { acc with s := v }
      else if dch = 'f' then
        (takeDigits 6 input).bind fun (v, n, r) =>
          spGo fuel fr r { acc with us := v * pow10 (6 - n) }
      else if dch = '%' then
        match input with
        | '%' :: r => spGo fuel fr r acc
        | _ => none
      else none
  | fuel + 1, c :: fr, input, acc =>
      match input with
      | i :: ir => if i = c then spGo fuel fr ir acc else none
      | [] => none

/-- `datetime.strptime`. -/
def strptime (s fmt : String) : Option PDateTime :=
  (spGo (fmt.data.length + 1) fmt.data s.data {}).bind fun a =>
    mkDateTime a.y a.mo a.d a.h a.mi a.s a.us

def padNum (w n : Nat) : String :=
  let s := toString n
  String.mk (List.replicate (w - s.length) '0') ++ s

/-- `strftime` over the same directive set; an unknown directive passes
through literally (host-dependent in CPython, inert for the repository's
formats). -/
def strftimeGo : List Char → PDateTime → List Char
  | [], _ => []
  | '%' :: dch :: fr, dt =>
      (if dch = 'Y' then (padNum 4 dt.year).data
        else if dch = 'y' then (padNum 2 (dt.year % 100)).data
        else if dch = 'm' then (padNum 2 dt.month).data
        else if dch = 'd' then (padNum 2 dt.day).data
        else if dch = 'H' then (padNum 2 dt.hour).data
        else if dch = 'I' then (padNum 2 (if dt.hour % 12 = 0 then 12 else dt.hour % 12)).data
        else if dch = 'M' then (padNum 2 dt.minute).data
        else if dch = 'S' then (padNum 2 dt.second).data
        else if dch = 'f' then (padNum 6 dt.micro).data
        else if dch = '%' then ['%']
        else ['%', dch]) ++ strftimeGo fr dt
  | c :: fr, dt => c :: strftimeGo fr dt

def strftime (dt : PDateTime) (fmt : String) : String :=
  String.mk (strftimeGo fmt.data dt)

/-- Python `str.replace` (non-overlapping, left to right). -/
def replaceAll : Nat → List Char → List Char → List Char → List Char
  | 0, _, _, cs => cs
  | _ + 1, [], _, cs => cs
  | fuel + 1, pat, rep, cs =>
      match cs with
      | [] => []
      | c :: rest =>
          if pat.isPrefixOf cs then rep ++ replaceAll fuel pat rep (cs.drop pat.length)
          else c :: replaceAll fuel pat rep rest

def strReplace (s pat rep : String) : String :=
  String.mk (replaceAll (s.data.length + 1) pat.data rep.data s.data)

def applyMapping (mapping : List (String × String)) (fmt : String) : String :=
  mapping.foldl (fun acc kv => strReplace acc kv.1 kv.2) fmt

/-! ## `add_field_processor_v1_0_0.py` -/

namespace AddField

/-- `convert_java_date_format_to_python`, with the dict iteration order of
the source. -/
def convertJavaFormat (javaFormat : String) : String :=
  applyMapping
    [("YYYY", "%Y"), ("YY", "%y"), ("MM", "%m"), ("dd", "%d"), ("DD", "%d"),
     ("HH", "%H"), ("hh", "%I"), ("mm", "%M"), ("ss", "%S"), ("SS", "%f"),
     ("H24", "%H"), ("H12", "%I")] javaFormat

/-- The date-parsing chain of `replacer`: ISO first, then the two fallback
formats. -/
def parseDateChain (s : String) : Option PDateTime :=
  match fromIso s with
  | some dt => some dt
  | none =>
      match strptime s "%Y-%m-%d %H:%M:%S" with
      | some dt => some dt
      | none => strptime s "%Y-%m-%d"

/-- The body of `replacer` for one matched placeholder, after the regex
groups (field value, operation, explicit format) are in hand.  A record
value of `None` renders as the empty string before any operation runs; the
`datetime`-instance branch is unreachable for JSON-parsed records. -/
def replacer (value : Json) (operation : Option String) (formatSpec : Option String)
    (defaultFmt : String) : String :=
  match value with
  | .null => ""
  | value =>
      if operation = some "date" then
        match value with
        | .str s =>
            (match parseDateChain s with
              | none => s
              | some dt => strftime dt (convertJavaFormat (formatSpec.getD defaultFmt)))
        | v => pyStr v
      else pyStr value

end AddField

/-! ## `add_uuid_field_v1_0_4.py` -/

namespace AddUuid

/-- `convert_date_format` of the UUID processor (its own token table). -/
def convertDateFormat (formatStr : String) : String :=
  applyMapping
    [("YYYY", "%Y"), ("MM", "%m"), ("DD", "%d"), ("HH", "%H"), ("H24", "%H"),
     ("h12", "%I"), ("mm", "%M"), ("ss", "%S"), ("SSS", "%f")] formatStr

/-- Howard Hinnant civil-from-days: days since 1970-01-01 to (y, m, d). -/
def civilFromDays (z0 : Int) : Int × Nat × Nat :=
  let z := z0 + 719468
  let era := Int.fdiv z 146097
  let doe := (z - era * 146097).toNat
  let yoe := (doe - doe / 1460 + doe / 36524 - doe / 146096) / 365
  let y := (yoe : Int) + era * 400
  let doy := doe - (365 * yoe + yoe / 4 - yoe / 100)
  let mp := (5 * doy + 2) / 153
  let d := doy - (153 * mp + 2) / 5 + 1
  let m := if mp < 10 then mp + 3 else mp - 9
  (if m ≤ 2 then y + 1 else y, m, d)

/-- `datetime.utcfromtimestamp` on whole seconds plus microseconds. -/
def utcFromTimestamp (secs : Int) (micro : Nat) : PDateTime :=
  let days := Int.fdiv secs 86400
  let sod := (secs - days * 86400).toNat
  let ymd := civilFromDays days
  ⟨ymd.1.toNat, ymd.2.1, ymd.2.2, sod / 3600, sod / 60 % 60, sod % 60, micro⟩

/-- The `date` branch of `replace_placeholder`: integers (and digit
strings) are Unix timestamps scaled by the configured unit; other strings
go through `strptime` with the configured input format; any parse failure
is caught and the placeholder becomes the empty string. -/
def dateBranch (fieldValue : Json) (timestampUnits inputFmt outputFmt : String) : String :=
  let timestampCase (t : Int) : String :=
    let sm : Int × Nat :=
      if timestampUnits = "milliseconds" then (Int.fdiv t 1000, (t % 1000).toNat * 1000)
      else (t, 0)
    strftime (utcFromTimestamp sm.1 sm.2) (convertDateFormat outputFmt)
  match fieldValue with
  | .int t => timestampCase t
  | .bool b => timestampCase (if b then 1 else 0)
  | .str s =>
      if s.data ≠ [] ∧ s.data.all Char.isDigit then
        timestampCase ((digitsToNat? s.data).getD 0 : Nat)
      else
        match strptime s (convertDateFormat inputFmt) with
        | some dt => strftime dt (convertDateFormat outputFmt)
        | none => ""
  | _ => ""

end AddUuid

/-! ## Specification-side notions -/

/-- Every cache entry is the compilation of its key — the invariant any
cache reachable from the empty one satisfies. -/
def cacheValid (c : V5.Cache) : Prop := ∀ p e, (p, e) ∈ c → parsePath p = some e

/-- What one cache-threading step guarantees: the cache stays valid and
grows monotonically, and the compile log is duplicate-free, contains only
texts that were not yet cached, and all of them are cached afterwards. -/
structure StepOk (c c' : V5.Cache) (log : List String) : Prop where
  valid : cacheValid c'
  mono : ∀ k v, V5.cacheGet c k = some v → V5.cacheGet c' k = some v
  nodup : log.Nodup
  fresh : ∀ x ∈ log, V5.cacheGet c x = none
  has : ∀ x ∈ log, (V5.cacheGet c' x).isSome = true

/-- The record test `_split_data` applies: some match of the key expression
equals (Python `==`) the target string. -/
def matchesKey (e : List JSeg) (target : String) (it : Json) : Bool :=
  (findPath e it).any fun m => Json.beq m (Json.str target)

/-- The string `O(quote)Brien`. -/
def obrien : String := String.mk ('O' :: sqc :: "Brien".data)

/-! # Theorems -/

mutual

theorem Json.beq_iff : ∀ (a b : Json), Json.beq a b = true ↔ a = b
  | .null, .null => by simp [Json.beq]
  | .null, .bool _ => by simp [Json.beq]
  | .null, .int _ => by simp [Json.beq]
  | .null, .str _ => by simp [Json.beq]
  | .null, .arr _ => by simp [Json.beq]
  | .null, .obj _ => by simp [Json.beq]
  | .bool _, .null => by simp [Json.beq]
  | .bool a, .bool b => by simp [Json.beq]
  | .bool _, .int _ => by simp [Json.beq]
  | .bool _, .str _ => by simp [Json.beq]
  | .bool _, .arr _ => by simp [Json.beq]
  | .bool _, .obj _ => by simp [Json.beq]
  | .int _, .null => by simp [Json.beq]
  | .int _, .bool _ => by simp [Json.beq]
  | .int a, .int b => by simp [Json.beq]
  | .int _, .str _ => by simp [Json.beq]
  | .int _, .arr _ => by simp [Json.beq]
  | .int _, .obj _ => by simp [Json.beq]
  | .str _, .null => by simp [Json.beq]
  | .str _, .bool _ => by simp [Json.beq]
  | .str _, .int _ => by simp [Json.beq]
  | .str a, .str b => by simp [Json.beq]
  | .str _, .arr _ => by simp [Json.beq]
  | .str _, .obj _ => by simp [Json.beq]
  | .arr _, .null => by simp [Json.beq]
  | .arr _, .bool _ => by simp [Json.beq]
  | .arr _, .int _ => by simp [Json.beq]
  | .arr _, .str _ => by simp [Json.beq]
  | .arr as_, .arr bs => by
      simp only [Json.beq, Json.arr.injEq]
      exact Json.beqList_iff as_ bs
  | .arr _, .obj _ => by simp [Json.beq]
  | .obj _, .null => by simp [Json.beq]
  | .obj _, .bool _ => by simp [Json.beq]
  | .obj _, .int _ => by simp [Json.beq]
  | .obj _, .str _ => by simp [Json.beq]
  | .obj _, .arr _ => by simp [Json.beq]
  | .obj as_, .obj bs => by
      simp only [Json.beq, Json.obj.injEq]
      exact Json.beqObj_iff as_ bs

theorem Json.beqList_iff : ∀ (as_ bs : List Json), Json.beqList as_ bs = true ↔ as_ = bs
  | [], [] => by simp [Json.beqList]
  | [], _ :: _ => by simp [Json.beqList]
  | _ :: _, [] => by simp [Json.beqList]
  | a :: as_, b :: bs => by
      simp only [Json.beqList, Bool.and_eq_true, List.cons.injEq]
      rw [Json.beq_iff a b, Json.beqList_iff as_ bs]

theorem Json.beqObj_iff : ∀ (as_ bs : List (String × Json)),
    Json.beqObj as_ bs = true ↔ as_ = bs
  | [], [] => by simp [Json.beqObj]
  | [], _ :: _ => by simp [Json.beqObj]
  | _ :: _, [] => by simp [Json.beqObj]
  | (k1, v1) :: as_, (k2, v2) :: bs => by
      simp only [Json.beqObj, Bool.and_eq_true, List.cons.injEq, Prod.mk.injEq]
      rw [Json.beq_iff v1 v2, Json.beqObj_iff as_ bs]
      simp [and_assoc]

end

theorem stringMk_data (s : String) : String.mk s.data = s := rfl

/-- A template the placeholder regex does not match anywhere renders to
itself, touching neither cache nor log. -/
theorem renderGo_no_placeholder (ctx : Json) :
    ∀ (fuel : Nat) (cs : List Char) (c : V5.Cache),
      V5.hasPlaceholderGo fuel cs = false →
      V5.renderGo ctx fuel cs c = (.ok cs, c, []) := by
  intro fuel
  induction fuel with
  | zero => intro cs c _; cases cs <;> rfl
  | succ n ih =>
    intro cs c h
    cases cs with
    | nil => rfl
    | cons ch rest =>
      rw [V5.hasPlaceholderGo] at h
      rw [V5.renderGo]
      by_cases hph : ch = '$' ∧ rest.head? = some '\x7b'
      · rw [if_pos hph] at h ⊢
        cases hsb : V5.spanBrace rest.tail with
        | some p => simp [hsb] at h
        | none => rfl
      · rw [if_neg hph] at h ⊢
        rw [ih rest c h]
        rfl

/-- Claim C9: a template with no placeholder renders to itself for every
data context (identity case), and the empty template renders to the empty
string. -/
theorem claim_C9_identity (t : String) (ctx : Json) (cache : V5.Cache)
    (h : V5.hasPlaceholder t = false) :
    V5.render t ctx cache = (.ok t, cache, []) ∧
    V5.render "" ctx cache = (.ok "", cache, []) := by
  constructor
  · show (match V5.renderGo ctx (t.data.length + 1) t.data cache with
      | (r, c1, l1) => (r.map String.mk, c1, l1)) = _
    rw [renderGo_no_placeholder ctx _ _ _ h]
    rfl
  · rfl

theorem claim_C9_witness :
    V5.hasPlaceholder "SELECT 1 FROM t" = false ∧
    (V5.render "SELECT 1 FROM t" (Json.obj []) [] = (.ok "SELECT 1 FROM t", [], []) ∧
      V5.render "" (Json.obj []) [] = (.ok "", [], [])) :=
  ⟨by decide, claim_C9_identity "SELECT 1 FROM t" (Json.obj []) [] (by decide)⟩

/-- Claim C10: in v5 a builtin applied to a `None` value (missing field
with no default) never runs; the placeholder becomes the bare literal
`null` — in particular `toString` of a missing field is `null`, not the
quoted text `None` that running `toString` would produce. -/
theorem claim_C10_null_short_circuit :
    (∀ name : String, V5.applyFunction name Json.null = "null") ∧
    V5.applyFunction "toString" Json.null ≠ quoteSq (escSq (pyStr Json.null)) ∧
    (V5.render "$\x7btoString($.missing)\x7d" (Json.obj []) []).1 = .ok "null" ∧
    (V5.render "$\x7btoInt($.missing)\x7d" (Json.obj []) []).1 = .ok "null" ∧
    (V5.render "$\x7btoJson($.missing)\x7d" (Json.obj []) []).1 = .ok "null" :=
  ⟨fun _ => rfl, by decide, rfl, rfl, rfl⟩

/-- Claim C8: rendering the wildcard-join template over the three-record
batch yields the quoted comma-join, and `append` in general single-quotes
every element of a sequence argument and appends the literal suffix. -/
theorem claim_C8_wildcard_append :
    V2.renderV2 "$\x7bappend($[*].id, \"\")\x7d"
        (Json.arr [Json.obj [("id", .int 1)], Json.obj [("id", .int 2)],
          Json.obj [("id", .int 3)]]) =
      .ok (String.mk [sqc, '1', sqc, ',', sqc, '2', sqc, ',', sqc, '3', sqc]) ∧
    (∀ (xs : List Json) (suffix : String),
      V2.appendV2 [Json.arr xs, Json.str suffix] =
        .ok (.str (joinSep "," (xs.map fun a => sqStr ++ pyStr a ++ sqStr ++ suffix)))) := by
  refine ⟨rfl, fun xs suffix => ?_⟩
  simp [V2.appendV2, V2.elementsOf, V2.asList]

/-- Claim C2 (amended): in v5 every textual substitution point applies the
single rule single-quote-and-double-embedded-quotes — plain strings,
JSON-serialized mappings and sequences, and the `toString`/`toJson`
builtins; on the name `O(quote)Brien` it produces `(q)O(q)(q)Brien(q)`. -/
theorem claim_C2_v5_quoting :
    (∀ s : String, V5.format (.str s) = quoteSq (escSq s)) ∧
    (∀ xs : List Json, V5.format (.arr xs) = quoteSq (escSq (jsonDumps (.arr xs)))) ∧
    (∀ kvs : List (String × Json),
      V5.format (.obj kvs) = quoteSq (escSq (jsonDumps (.obj kvs)))) ∧
    (∀ v : Json, v ≠ .null → V5.applyFunction "toString" v = quoteSq (escSq (pyStr v))) ∧
    (∀ v : Json, v ≠ .null → V5.applyFunction "toJson" v = quoteSq (escSq (jsonDumps v))) ∧
    V5.format (.str obrien) =
      String.mk [sqc, 'O', sqc, sqc, 'B', 'r', 'i', 'e', 'n', sqc] := by
  refine ⟨fun s => rfl, fun xs => rfl, fun kvs => rfl, ?_, ?_, by decide⟩
  · intro v hv
    cases v with
    | null => exact absurd rfl hv
    | bool b => rfl
    | int n => rfl
    | str s => rfl
    | arr xs => rfl
    | obj kvs => rfl
  · intro v hv
    cases v with
    | null => exact absurd rfl hv
    | bool b => rfl
    | int n => rfl
    | str s => rfl
    | arr xs => rfl
    | obj kvs => rfl

theorem claim_C2_witness :
    (Json.str obrien ≠ Json.null) ∧
    V5.applyFunction "toString" (Json.str obrien) = quoteSq (escSq (pyStr (Json.str obrien))) :=
  ⟨by simp, claim_C2_v5_quoting.2.2.2.1 (Json.str obrien) (by simp)⟩

/-- Claim C2 counterexample: the v2 renderer, cited for the same rule,
single-quotes a string WITHOUT doubling the embedded quote: the name
`O(quote)Brien` renders as `(q)O(q)Brien(q)`. -/
theorem claim_C2_counterexample :
    V2.renderV2 "$\x7b$.name\x7d" (Json.obj [("name", Json.str obrien)]) =
      .ok (String.mk (sqc :: 'O' :: sqc :: ("Brien".data ++ [sqc]))) ∧
    String.mk (sqc :: 'O' :: sqc :: ("Brien".data ++ [sqc])) ≠ quoteSq (escSq obrien) :=
  ⟨rfl, by decide⟩

/-- Claim C5 (amended): in v2 an unknown function name makes evaluation
fail with the unknown-function error, and the failure aborts the whole
render (it is not a silent fallback); the per-placeholder-recovery part of
the claim belongs to v5, where no failure happens at all (see the
counterexample). -/
theorem claim_C5_v2_unknown_function (name : String) (args : List Json)
    (h1 : name ≠ "toInt") (h2 : name ≠ "toStr") (h3 : name ≠ "append") :
    V2.callFunction name args = .error ("Unknown function: " ++ name) ∧
    V2.renderV2 "$\x7bfrob($.x)\x7d" (Json.obj [("x", Json.int 5)]) =
      .error "Unknown function: frob" := by
  refine ⟨?_, rfl⟩
  unfold V2.callFunction
  rw [if_neg h1, if_neg h2, if_neg h3]

theorem claim_C5_witness :
    (("frob" : String) ≠ "toInt" ∧ ("frob" : String) ≠ "toStr" ∧
      ("frob" : String) ≠ "append") ∧
    (V2.callFunction "frob" [] = .error ("Unknown function: " ++ "frob") ∧
      V2.renderV2 "$\x7bfrob($.x)\x7d" (Json.obj [("x", Json.int 5)]) =
        .error "Unknown function: frob") :=
  ⟨by decide,
    claim_C5_v2_unknown_function "frob" [] (by decide) (by decide) (by decide)⟩

/-- Claim C5 counterexample: v5, cited for the same property, does NOT
fail on an unknown function name — `_apply_function` falls through to
`_format` and the placeholder renders normally. -/
theorem claim_C5_counterexample :
    V5.applyFunction "frob" (Json.int 5) = V5.format (Json.int 5) ∧
    (V5.render "$\x7bfrob($.x)\x7d" (Json.obj [("x", Json.int 5)]) []).1 = .ok "5" :=
  ⟨rfl, rfl⟩

theorem elementsOf_cons (a : Json) (rest : List Json) :
    V2.elementsOf (a :: rest) = V2.asList a ++ V2.elementsOf rest := by
  simp [V2.elementsOf]

/-- `int()` of a list with one unparseable element raises. -/
theorem intList_error (x : Json) :
    ∀ (xs : List Json), x ∈ xs → pyInt x = none →
      V2.intList xs = .error "ConversionError: invalid literal for int" := by
  intro xs
  induction xs with
  | nil => intro hx _; exact absurd hx (List.not_mem_nil x)
  | cons a rest ih =>
    intro hx hnp
    rw [V2.intList]
    rcases List.mem_cons.mp hx with h | h
    · subst h; rw [hnp]
    · cases hpa : pyInt a with
      | none => rfl
      | some n => rw [ih h hnp]; rfl

/-- `toInt`-style flattening with one unparseable element raises. -/
theorem intsOf_error (x : Json) :
    ∀ (args : List Json), x ∈ V2.elementsOf args → pyInt x = none →
      ∃ msg, V2.intsOf args = .error msg := by
  intro args
  induction args with
  | nil => intro hx _; exact absurd hx (List.not_mem_nil x)
  | cons a rest ih =>
    intro hx hnp
    rw [elementsOf_cons] at hx
    rw [V2.intsOf]
    rcases List.mem_append.mp hx with h | h
    · rw [intList_error x (V2.asList a) h hnp]
      exact ⟨_, rfl⟩
    · cases hil : V2.intList (V2.asList a) with
      | error e => exact ⟨e, rfl⟩
      | ok ys =>
          obtain ⟨m, hm⟩ := ih h hnp
          rw [hm]
          exact ⟨m, rfl⟩

/-- Claim C7 (amended): in v2 `toInt` casts every element and any
non-parseable element raises the conversion error out of the call; in v5,
by contrast, the failure is caught and `null` silently substituted (see
the counterexample). -/
theorem claim_C7_v2_toInt (args : List Json) (x : Json)
    (hx : x ∈ V2.elementsOf args) (hnp : pyInt x = none) :
    ∃ msg, V2.toIntV2 args = .error msg := by
  obtain ⟨m, hm⟩ := intsOf_error x args hx hnp
  refine ⟨m, ?_⟩
  unfold V2.toIntV2
  rw [hm]

theorem claim_C7_witness :
    ((Json.str "abc") ∈ V2.elementsOf [Json.arr [Json.int 1, Json.str "abc"]] ∧
      pyInt (Json.str "abc") = none) ∧
    (∃ msg, V2.toIntV2 [Json.arr [Json.int 1, Json.str "abc"]] = .error msg) :=
  ⟨⟨by simp [V2.elementsOf, V2.asList], rfl⟩,
    claim_C7_v2_toInt [Json.arr [Json.int 1, Json.str "abc"]] (Json.str "abc")
      (by simp [V2.elementsOf, V2.asList]) rfl⟩

/-- Claim C7 counterexample: v5, cited for the same property, silently
substitutes `null` for a non-parseable `toInt` argument instead of
failing. -/
theorem claim_C7_counterexample :
    V5.applyFunction "toInt" (Json.str "abc") = "null" ∧
    (V5.render "$\x7btoInt($.x)\x7d" (Json.obj [("x", Json.str "abc")]) []).1 =
      .ok "null" :=
  ⟨rfl, rfl⟩

/-- Claim C3 (amended): in v5 a concrete path that matches nothing makes
`_extract` return the configured default (`None` when there is none), and
the render substitutes `null` and returns normally; the raise-on-missing
behaviour of the v1.0.7 resolver is the counterexample. -/
theorem claim_C3_missing_path (ctx : Json) (path : String) (e : List JSeg) (d : Json)
    (hroot : path ≠ "$") (hp : parsePath path = some e) (hm : findPath e ctx = []) :
    V5.extractP ctx path d = .ok d ∧
    (V5.extract [] ctx path d).1 = .ok d ∧
    (V5.render "$\x7b$.missing\x7d" (Json.obj []) []).1 = .ok "null" := by
  refine ⟨?_, ?_, rfl⟩
  · unfold V5.extractP
    rw [if_neg hroot, hp]
    show (match findPath e ctx with
      | [] => Except.ok d
      | [v] => Except.ok v
      | vs => Except.ok (Json.arr vs)) = Except.ok d
    rw [hm]
  · have hge : V5.getExpr [] path = (.ok e, [(path, e)], [path]) := by
      unfold V5.getExpr
      show (match parsePath path with
        | some e2 => (Except.ok e2, [(path, e2)], [path])
        | none => (Except.error path, ([] : V5.Cache), ([] : List String))) = _
      rw [hp]
    unfold V5.extract
    rw [if_neg hroot, hge]
    show (match findPath e ctx with
      | [] => (Except.ok d, [(path, e)], [path])
      | [v] => (Except.ok v, [(path, e)], [path])
      | vs => (Except.ok (Json.arr vs), [(path, e)], [path])).1 = Except.ok d
    rw [hm]

theorem claim_C3_witness :
    (("$.missing" : String) ≠ "$" ∧
      parsePath "$.missing" = some [JSeg.field "missing"] ∧
      findPath [JSeg.field "missing"] (Json.obj []) = []) ∧
    (V5.extractP (Json.obj []) "$.missing" Json.null = .ok Json.null ∧
      (V5.extract [] (Json.obj []) "$.missing" Json.null).1 = .ok Json.null ∧
      (V5.render "$\x7b$.missing\x7d" (Json.obj []) []).1 = .ok "null") :=
  ⟨⟨by decide, rfl, rfl⟩,
    claim_C3_missing_path (Json.obj []) "$.missing" [JSeg.field "missing"] Json.null
      (by decide) rfl rfl⟩

/-- Claim C3 counterexample: the v1.0.7 resolver, cited for the same
property, raises on the missing key and the error escapes the render
call. -/
theorem claim_C3_counterexample :
    V107.render107 "$\x7b$.missing\x7d" (Json.obj []) = .error "KeyError: missing" ∧
    V107.evaluateExpression "$.missing" (Json.obj []) = .error "KeyError: missing" :=
  ⟨rfl, rfl⟩

theorem Json.beq_refl (x : Json) : Json.beq x x = true := (Json.beq_iff x x).mpr rfl

/-- The `item not in matched` filter of `_split_data` is the complement
filter: membership in the matched bucket is equivalent to satisfying the
match test. -/
theorem filter_not_mem_filter (p : Json → Bool) (items : List Json) :
    items.filter (fun it => ! (items.filter p).any fun y => Json.beq y it) =
      items.filter fun it => ! p it := by
  apply List.filter_congr
  intro x hx
  have hany : ((items.filter p).any fun y => Json.beq y x) = p x := by
    cases hpx : p x with
    | true =>
        apply List.any_eq_true.mpr
        exact ⟨x, List.mem_filter.mpr ⟨hx, hpx⟩, Json.beq_refl x⟩
    | false =>
        rw [Bool.eq_false_iff]
        intro hcontra
        obtain ⟨y, hy, hbeq⟩ := List.any_eq_true.mp hcontra
        have hxy : y = x := (Json.beq_iff y x).mp hbeq
        have := (List.mem_filter.mp hy).2
        rw [hxy, hpx] at this
        exact Bool.false_ne_true this
  rw [hany]

/-- Claim C4: `_split_data` is a faithful conditional partition: an empty
or absent key (or an absent target value) routes everything to the
non-matching bucket unchanged; otherwise the matching bucket is exactly
the order-preserving filter of records whose resolved key equals the
target, the non-matching bucket is its complement filter, the buckets are
disjoint, and together they are a permutation of the input batch. -/
theorem claim_C4_split_partition (items : List Json) (d : Json) (v? : Option String)
    (key target : String) (e : List JSeg)
    (hk : key ≠ "") (hp : parsePath key = some e) :
    V5.splitData d none v? = .ok (.arr [], d) ∧
    V5.splitData d (some "") v? = .ok (.arr [], d) ∧
    V5.splitData d (some key) none = .ok (.arr [], d) ∧
    V5.splitData (.arr items) (some key) (some target) =
      .ok (.arr (items.filter (matchesKey e target)),
        .arr (items.filter fun it => ! matchesKey e target it)) ∧
    (∀ x, x ∈ items.filter (matchesKey e target) →
      x ∉ items.filter fun it => ! matchesKey e target it) ∧
    List.Perm
      (items.filter (matchesKey e target) ++ items.filter fun it => ! matchesKey e target it)
      items := by
  refine ⟨by simp [V5.splitData], by simp [V5.splitData], by simp [V5.splitData], ?_, ?_, ?_⟩
  · unfold V5.splitData
    rw [if_neg (by simp [hk])]
    show (match parsePath key with
      | none => Except.error key
      | some e2 =>
          match Json.arr items with
          | Json.arr its =>
              let matched := its.filter fun it =>
                (findPath e2 it).any fun m => Json.beq m (Json.str target)
              let unmatched := its.filter fun it => ! matched.any fun y => Json.beq y it
              Except.ok (Json.arr matched, Json.arr unmatched)
          | dd =>
              if (findPath e2 dd).any (fun m => Json.beq m (Json.str target)) then
                Except.ok (Json.arr [dd], Json.arr [])
              else Except.ok (Json.arr [], Json.arr [dd])) = _
    rw [hp]
    show Except.ok (Json.arr (items.filter (matchesKey e target)),
        Json.arr (items.filter fun it =>
          ! (items.filter (matchesKey e target)).any fun y => Json.beq y it)) = _
    rw [filter_not_mem_filter (matchesKey e target) items]
  · intro x hxm hxn
    have h1 := (List.mem_filter.mp hxm).2
    have h2 := (List.mem_filter.mp hxn).2
    rw [h1] at h2
    simp at h2
  · exact List.filter_append_perm _ items

theorem claim_C4_witness :
    (("$.status" : String) ≠ "" ∧ parsePath "$.status" = some [JSeg.field "status"]) ∧
    (V5.splitData (Json.obj [("a", Json.int 1)]) none (some "active") =
        .ok (.arr [], Json.obj [("a", Json.int 1)]) ∧
      V5.splitData (Json.obj [("a", Json.int 1)]) (some "") (some "active") =
        .ok (.arr [], Json.obj [("a", Json.int 1)]) ∧
      V5.splitData (Json.obj [("a", Json.int 1)]) (some "$.status") none =
        .ok (.arr [], Json.obj [("a", Json.int 1)]) ∧
      V5.splitData
          (.arr [Json.obj [("id", Json.int 1), ("status", Json.str "active")],
            Json.obj [("id", Json.int 2), ("status", Json.str "new")],
            Json.obj [("id", Json.int 3), ("status", Json.str "active")],
            Json.obj [("id", Json.int 4), ("status", Json.str "old")],
            Json.obj [("id", Json.int 5)]])
          (some "$.status") (some "active") =
        .ok (.arr ([Json.obj [("id", Json.int 1), ("status", Json.str "active")],
            Json.obj [("id", Json.int 2), ("status", Json.str "new")],
            Json.obj [("id", Json.int 3), ("status", Json.str "active")],
            Json.obj [("id", Json.int 4), ("status", Json.str "old")],
            Json.obj [("id", Json.int 5)]].filter
              (matchesKey [JSeg.field "status"] "active")),
          .arr ([Json.obj [("id", Json.int 1), ("status", Json.str "active")],
            Json.obj [("id", Json.int 2), ("status", Json.str "new")],
            Json.obj [("id", Json.int 3), ("status", Json.str "active")],
            Json.obj [("id", Json.int 4), ("status", Json.str "old")],
            Json.obj [("id", Json.int 5)]].filter
              fun it => ! matchesKey [JSeg.field "status"] "active" it)) ∧
      (∀ x,
        x ∈ [Json.obj [("id", Json.int 1), ("status", Json.str "active")],
            Json.obj [("id", Json.int 2), ("status", Json.str "new")],
            Json.obj [("id", Json.int 3), ("status", Json.str "active")],
            Json.obj [("id", Json.int 4), ("status", Json.str "old")],
            Json.obj [("id", Json.int 5)]].filter
              (matchesKey [JSeg.field "status"] "active") →
          x ∉ [Json.obj [("id", Json.int 1), ("status", Json.str "active")],
            Json.obj [("id", Json.int 2), ("status", Json.str "new")],
            Json.obj [("id", Json.int 3), ("status", Json.str "active")],
            Json.obj [("id", Json.int 4), ("status", Json.str "old")],
            Json.obj [("id", Json.int 5)]].filter
              fun it => ! matchesKey [JSeg.field "status"] "active" it) ∧
      List.Perm
        ([Json.obj [("id", Json.int 1), ("status", Json.str "active")],
          Json.obj [("id", Json.int 2), ("status", Json.str "new")],
          Json.obj [("id", Json.int 3), ("status", Json.str "active")],
          Json.obj [("id", Json.int 4), ("status", Json.str "old")],
          Json.obj [("id", Json.int 5)]].filter (matchesKey [JSeg.field "status"] "active") ++
          [Json.obj [("id", Json.int 1), ("status", Json.str "active")],
            Json.obj [("id", Json.int 2), ("status", Json.str "new")],
            Json.obj [("id", Json.int 3), ("status", Json.str "active")],
            Json.obj [("id", Json.int 4), ("status", Json.str "old")],
            Json.obj [("id", Json.int 5)]].filter
              fun it => ! matchesKey [JSeg.field "status"] "active" it)
        [Json.obj [("id", Json.int 1), ("status", Json.str "active")],
          Json.obj [("id", Json.int 2), ("status", Json.str "new")],
          Json.obj [("id", Json.int 3), ("status", Json.str "active")],
          Json.obj [("id", Json.int 4), ("status", Json.str "old")],
          Json.obj [("id", Json.int 5)]]) :=
  ⟨⟨by decide, rfl⟩,
    claim_C4_split_partition
      [Json.obj [("id", Json.int 1), ("status", Json.str "active")],
        Json.obj [("id", Json.int 2), ("status", Json.str "new")],
        Json.obj [("id", Json.int 3), ("status", Json.str "active")],
        Json.obj [("id", Json.int 4), ("status", Json.str "old")],
        Json.obj [("id", Json.int 5)]]
      (Json.obj [("a", Json.int 1)]) (some "active") "$.status" "active"
      [JSeg.field "status"] (by decide) rfl⟩

/-- Claim C6 (amended): in add_field_processor_v1_0_0 the `date` operation
on a string that neither ISO parsing nor the fallback formats accept
returns the original string unchanged and never throws; in
add_uuid_field_v1_0_4 the same situation substitutes the empty string (see
the counterexample). -/
theorem claim_C6_addfield_date (s : String) (fmtSpec : Option String) (defFmt : String)
    (h : AddField.parseDateChain s = none) :
    AddField.replacer (.str s) (some "date") fmtSpec defFmt = s := by
  show (if (some "date" : Option String) = some "date" then
      match Json.str s with
      | .str s =>
          (match AddField.parseDateChain s with
            | none => s
            | some dt =>
                strftime dt (AddField.convertJavaFormat (fmtSpec.getD defFmt)))
      | v => pyStr v
    else pyStr (Json.str s)) = s
  rw [if_pos rfl]
  show (match AddField.parseDateChain s with
    | none => s
    | some dt => strftime dt (AddField.convertJavaFormat (fmtSpec.getD defFmt))) = s
  rw [h]

theorem claim_C6_witness :
    AddField.parseDateChain "hello" = none ∧
    AddField.replacer (.str "hello") (some "date") none "YYYY-MM-DD" = "hello" :=
  ⟨rfl, claim_C6_addfield_date "hello" none "YYYY-MM-DD" rfl⟩

/-- Claim C6 counterexample: the UUID processor, cited for the same
property, replaces an unparseable date string by the empty string, not by
the original value. -/
theorem claim_C6_counterexample :
    AddUuid.dateBranch (.str "hello") "milliseconds" "YYYY-MM-DD HH:mm:ss" "YYYY-MM-DD" =
      "" ∧ ("" : String) ≠ "hello" :=
  ⟨rfl, by decide⟩

/-! ### Cache transparency (claim C1) -/

theorem cacheGet_mem {p : String} {e : List JSeg} :
    ∀ {c : V5.Cache}, V5.cacheGet c p = some e → (p, e) ∈ c
  | [], h => absurd h (by simp [V5.cacheGet])
  | (k, v) :: rest, h => by
      rw [V5.cacheGet] at h
      by_cases hk : k = p
      · subst hk
        rw [if_pos rfl] at h
        injection h with h
        subst h
        exact List.mem_cons_self _ _
      · rw [if_neg hk] at h
        exact List.mem_cons_of_mem _ (cacheGet_mem h)

theorem StepOk.refl {c : V5.Cache} (hv : cacheValid c) : StepOk c c [] :=
  ⟨hv, fun _ _ h => h, List.nodup_nil,
    fun x hx => absurd hx (List.not_mem_nil x),
    fun x hx => absurd hx (List.not_mem_nil x)⟩

theorem StepOk.trans {c c1 c2 : V5.Cache} {l1 l2 : List String}
    (h1 : StepOk c c1 l1) (h2 : StepOk c1 c2 l2) : StepOk c c2 (l1 ++ l2) := by
  refine ⟨h2.valid, fun k v hk => h2.mono k v (h1.mono k v hk), ?_, ?_, ?_⟩
  · rw [List.nodup_append]
    refine ⟨h1.nodup, h2.nodup, ?_⟩
    intro x hx1 hx2
    have hs := h1.has x hx1
    rw [h2.fresh x hx2] at hs
    exact Bool.false_ne_true hs
  · intro x hx
    rcases List.mem_append.mp hx with h | h
    · exact h1.fresh x h
    · cases hcx : V5.cacheGet c x with
      | none => rfl
      | some v =>
          have hmono := h1.mono x v hcx
          rw [h2.fresh x h] at hmono
          exact Option.noConfusion hmono
  · intro x hx
    rcases List.mem_append.mp hx with h | h
    · obtain ⟨v, hv'⟩ := Option.isSome_iff_exists.mp (h1.has x h)
      rw [h2.mono x v hv']
      rfl
    · exact h2.has x h

/-- `_get_expr` behaves like a pure call to `parse` on a valid cache, and
its cache/log step is well-behaved. -/
theorem getExpr_spec {c : V5.Cache} (hv : cacheValid c) (path : String) :
    ∀ {r : Except String (List JSeg)} {c1 : V5.Cache} {l1 : List String},
      V5.getExpr c path = (r, c1, l1) →
      r = (match parsePath path with
        | some e => Except.ok e
        | none => Except.error path) ∧ StepOk c c1 l1 := by
  intro r c1 l1 hE
  unfold V5.getExpr at hE
  cases hcg : V5.cacheGet c path with
  | some e =>
      rw [hcg] at hE
      cases hE
      have hpe : parsePath path = some e := hv path e (cacheGet_mem hcg)
      rw [hpe]
      exact ⟨rfl, StepOk.refl hv⟩
  | none =>
      rw [hcg] at hE
      cases hpp : parsePath path with
      | some e =>
          rw [hpp] at hE
          cases hE
          refine ⟨rfl, ?_, ?_, ?_, ?_, ?_⟩
          · intro q e' hm
            rcases List.mem_cons.mp hm with h | h
            · injection h with ha hb
              subst ha; subst hb
              exact hpp
            · exact hv q e' h
          · intro k v hk
            rw [V5.cacheGet]
            by_cases h : path = k
            · subst h
              rw [hcg] at hk
              exact Option.noConfusion hk
            · rw [if_neg h]
              exact hk
          · simp
          · intro x hx
            rw [List.mem_singleton] at hx
            subst hx
            exact hcg
          · intro x hx
            rw [List.mem_singleton] at hx
            subst hx
            rw [V5.cacheGet, if_pos rfl]
            rfl
      | none =>
          rw [hpp] at hE
          cases hE
          exact ⟨rfl, StepOk.refl hv⟩

/-- `_extract` equals its pure denotation on a valid cache. -/
theorem extract_spec {c : V5.Cache} (hv : cacheValid c) (ctx : Json) (path : String)
    (d : Json) :
    ∀ {r : Except String Json} {c1 : V5.Cache} {l1 : List String},
      V5.extract c ctx path d = (r, c1, l1) →
      r = V5.extractP ctx path d ∧ StepOk c c1 l1 := by
  intro r c1 l1 hE
  unfold V5.extract at hE
  unfold V5.extractP
  by_cases hroot : path = "$"
  · rw [if_pos hroot] at hE ⊢
    cases hE
    exact ⟨rfl, StepOk.refl hv⟩
  · rw [if_neg hroot] at hE ⊢
    rcases hG : V5.getExpr c path with ⟨rg, cg, lg⟩
    obtain ⟨hrg, hstep⟩ := getExpr_spec hv path hG
    rw [hG] at hE
    cases hpp : parsePath path with
    | none =>
        rw [hpp] at hrg
        simp only [] at hrg
        subst hrg
        simp only [] at hE
        cases hE
        exact ⟨rfl, hstep⟩
    | some e =>
        rw [hpp] at hrg
        simp only [] at hrg
        subst hrg
        simp only [] at hE
        rcases hF : findPath e ctx with _ | ⟨v, _ | ⟨w, vs⟩⟩ <;>
          (rw [hF] at hE; cases hE; refine ⟨?_, hstep⟩; simp only []; rw [hF])

/-- `_eval_placeholder` equals its pure denotation on a valid cache. -/
theorem evalPlaceholder_spec {c : V5.Cache} (hv : cacheValid c) (ctx : Json)
    (raw : String) :
    ∀ {r : Except String String} {c1 : V5.Cache} {l1 : List String},
      V5.evalPlaceholder c ctx raw = (r, c1, l1) →
      r = V5.evalPlaceholderP ctx raw ∧ StepOk c c1 l1 := by
  intro r c1 l1 hE
  unfold V5.evalPlaceholder at hE
  unfold V5.evalPlaceholderP
  simp only [] at hE ⊢
  cases hfm : V5.fnMatch (pyStrip raw) with
  | some pr =>
      obtain ⟨name, argsStr⟩ := pr
      rw [hfm] at hE
      simp only [] at hE ⊢
      rcases hX : V5.extract c ctx (pyStrip (V5.splitComma1 argsStr).1)
          (match (V5.splitComma1 argsStr).2 with
            | some a1 => V5.parseDefault (pyStrip a1)
            | none => Json.null) with ⟨rx, cx, lx⟩
      obtain ⟨hrx, hstep⟩ := extract_spec hv ctx _ _ hX
      rw [hX] at hE
      cases rx with
      | error err =>
          cases hE
          rw [← hrx]
          exact ⟨rfl, hstep⟩
      | ok v =>
          cases hE
          rw [← hrx]
          exact ⟨rfl, hstep⟩
  | none =>
      rw [hfm] at hE
      simp only [] at hE ⊢
      by_cases hcm : (pyStrip raw).data.contains ','
      · rw [if_pos hcm] at hE ⊢
        rcases hX : V5.extract c ctx (pyStrip (V5.splitComma1 (pyStrip raw)).1)
            (V5.parseDefault (pyStrip (((V5.splitComma1 (pyStrip raw)).2).getD ""))) with
          ⟨rx, cx, lx⟩
        obtain ⟨hrx, hstep⟩ := extract_spec hv ctx _ _ hX
        rw [hX] at hE
        cases rx with
        | error err =>
            cases hE
            rw [← hrx]
            exact ⟨rfl, hstep⟩
        | ok v =>
            cases hE
            rw [← hrx]
            exact ⟨rfl, hstep⟩
      · rw [if_neg hcm] at hE ⊢
        rcases hX : V5.extract c ctx (pyStrip raw) Json.null with ⟨rx, cx, lx⟩
        obtain ⟨hrx, hstep⟩ := extract_spec hv ctx _ _ hX
        rw [hX] at hE
        cases rx with
        | error err =>
            cases hE
            rw [← hrx]
            exact ⟨rfl, hstep⟩
        | ok v =>
            cases hE
            rw [← hrx]
            exact ⟨rfl, hstep⟩

/-- `_render` equals its pure denotation on a valid cache, and the
compiled-text log of one render is duplicate-free, fresh, and afterwards
cached. -/
theorem renderGo_spec (ctx : Json) :
    ∀ (fuel : Nat) (cs : List Char) (c : V5.Cache), cacheValid c →
      ∀ {r : Except String (List Char)} {c1 : V5.Cache} {l1 : List String},
        V5.renderGo ctx fuel cs c = (r, c1, l1) →
        r = V5.renderPGo ctx fuel cs ∧ StepOk c c1 l1 := by
  intro fuel
  induction fuel with
  | zero =>
      intro cs c hv r c1 l1 hE
      cases cs with
      | nil => rw [V5.renderGo] at hE; cases hE; exact ⟨rfl, StepOk.refl hv⟩
      | cons ch rest =>
          rw [V5.renderGo] at hE
          · cases hE; exact ⟨rfl, StepOk.refl hv⟩
          · simp
  | succ n ih =>
      intro cs c hv r c1 l1 hE
      cases cs with
      | nil => rw [V5.renderGo] at hE; cases hE; exact ⟨rfl, StepOk.refl hv⟩
      | cons ch rest =>
          rw [V5.renderGo] at hE
          rw [V5.renderPGo]
          by_cases hph : ch = '$' ∧ rest.head? = some '\x7b'
          · rw [if_pos hph] at hE ⊢
            cases hsb : V5.spanBrace rest.tail with
            | none =>
                rw [hsb] at hE
                simp only [] at hE
                cases hE
                exact ⟨rfl, StepOk.refl hv⟩
            | some p =>
                obtain ⟨inner, rest2⟩ := p
                rw [hsb] at hE
                simp only [] at hE ⊢
                rcases hEv : V5.evalPlaceholder c ctx (String.mk inner) with ⟨re, ce, le⟩
                obtain ⟨hre, hstepe⟩ := evalPlaceholder_spec hv ctx _ hEv
                rw [hEv] at hE
                cases re with
                | error err =>
                    simp only [] at hE
                    cases hE
                    rw [← hre]
                    exact ⟨rfl, hstepe⟩
                | ok s =>
                    simp only [] at hE
                    rcases hR : V5.renderGo ctx n rest2 ce with ⟨rr, cr, lr⟩
                    obtain ⟨hrr, hstepr⟩ := ih rest2 ce hstepe.valid hR
                    rw [hR] at hE
                    cases rr with
                    | error err =>
                        simp only [] at hE
                        cases hE
                        rw [← hre, ← hrr]
                        exact ⟨rfl, hstepe.trans hstepr⟩
                    | ok out =>
                        simp only [] at hE
                        cases hE
                        rw [← hre, ← hrr]
                        exact ⟨rfl, hstepe.trans hstepr⟩
          · rw [if_neg hph] at hE ⊢
            rcases hR : V5.renderGo ctx n rest c with ⟨rr, cr, lr⟩
            obtain ⟨hrr, hstepr⟩ := ih rest c hv hR
            rw [hR] at hE
            simp only [] at hE
            cases hE
            rw [← hrr]
            exact ⟨rfl, hstepr⟩

/-- Claim C1: compiled-expression caching is transparent.  Rendering a
template against one context and then another, starting from any valid
cache, gives for each call exactly the cache-free result of that template
and that call's context (no stale data), and the combined compile log has
no duplicate text: each distinct placeholder path is compiled at most once
across both renders, later lookups being served from the cache. -/
theorem claim_C1_cache_transparency (t : String) (ctxA ctxB : Json) (cache : V5.Cache)
    (hv : cacheValid cache) :
    (V5.render t ctxA cache).1 = V5.renderP t ctxA ∧
    (V5.render t ctxB (V5.render t ctxA cache).2.1).1 = V5.renderP t ctxB ∧
    ((V5.render t ctxA cache).2.2 ++
      (V5.render t ctxB (V5.render t ctxA cache).2.1).2.2).Nodup := by
  rcases h1 : V5.renderGo ctxA (t.data.length + 1) t.data cache with ⟨r1, c1, l1⟩
  obtain ⟨hr1, hs1⟩ := renderGo_spec ctxA _ _ _ hv h1
  rcases h2 : V5.renderGo ctxB (t.data.length + 1) t.data c1 with ⟨r2, c2, l2⟩
  obtain ⟨hr2, hs2⟩ := renderGo_spec ctxB _ _ _ hs1.valid h2
  have hR1 : V5.render t ctxA cache = (r1.map String.mk, c1, l1) := by
    unfold V5.render
    rw [h1]
  have hR2 : V5.render t ctxB c1 = (r2.map String.mk, c2, l2) := by
    unfold V5.render
    rw [h2]
  rw [hR1]
  refine ⟨?_, ?_, ?_⟩
  · show r1.map String.mk = V5.renderP t ctxA
    unfold V5.renderP
    rw [← hr1]
  · show (V5.render t ctxB c1).1 = V5.renderP t ctxB
    rw [hR2]
    show r2.map String.mk = V5.renderP t ctxB
    unfold V5.renderP
    rw [← hr2]
  · show (l1 ++ (V5.render t ctxB c1).2.2).Nodup
    rw [hR2]
    exact (hs1.trans hs2).nodup

theorem claim_C1_witness :
    cacheValid [] ∧
    ((V5.render "$\x7b$.a\x7d:$\x7b$.a\x7d" (Json.obj [("a", Json.int 1)]) []).1 =
        V5.renderP "$\x7b$.a\x7d:$\x7b$.a\x7d" (Json.obj [("a", Json.int 1)]) ∧
      (V5.render "$\x7b$.a\x7d:$\x7b$.a\x7d" (Json.obj [("a", Json.int 2)])
          (V5.render "$\x7b$.a\x7d:$\x7b$.a\x7d" (Json.obj [("a", Json.int 1)]) []).2.1).1 =
        V5.renderP "$\x7b$.a\x7d:$\x7b$.a\x7d" (Json.obj [("a", Json.int 2)]) ∧
      ((V5.render "$\x7b$.a\x7d:$\x7b$.a\x7d" (Json.obj [("a", Json.int 1)]) []).2.2 ++
        (V5.render "$\x7b$.a\x7d:$\x7b$.a\x7d" (Json.obj [("a", Json.int 2)])
          (V5.render "$\x7b$.a\x7d:$\x7b$.a\x7d" (Json.obj [("a", Json.int 1)]) []).2.1).2.2).Nodup) :=
  ⟨by intro p e h; exact absurd h (List.not_mem_nil _),
    claim_C1_cache_transparency "$\x7b$.a\x7d:$\x7b$.a\x7d" (Json.obj [("a", Json.int 1)])
      (Json.obj [("a", Json.int 2)]) []
      (by intro p e h; exact absurd h (List.not_mem_nil _))⟩

end Nifi



